import Mathlib

/-!
Verification of the pendector repository status/sync-state engine.

The Rust sources are shallowly embedded: commit identifiers (git OIDs)
become `Nat`, a `git2::Repository` handle becomes a record of the query
results the code reads from it (`head`, `find_reference`, `merge_base`,
`statuses`), the operating-system behaviour of a spawned `git fetch`
process becomes an explicit `SpawnResult` value, and fallible Rust
functions returning `PendectorResult<T>` become Lean functions returning
`Except PendectorError T`.
-/

/-- Commit identifier (git OID), abstracted as a natural number. -/
abbrev Oid := Nat

/-- Result of a successful `repo.head()` call: `shorthand()` and `target()`
as the code reads them (each may independently be absent). -/
structure RepoHead where
  branchName : Option String
  target : Option Oid
deriving Repr, DecidableEq

/-- One entry of `repo.statuses(...)` before option filtering: the status
flags read by `get_repository_status_with_fetch`, the `IGNORED` flag used
by `include_ignored`, and `entry.path()` (absent when the path is not
valid UTF-8). `wtNew` is how libgit2 reports an untracked file. -/
structure StatusEntry where
  path : Option String
  wtNew : Bool := false
  indexNew : Bool := false
  wtModified : Bool := false
  indexModified : Bool := false
  wtDeleted : Bool := false
  indexDeleted : Bool := false
  wtRenamed : Bool := false
  indexRenamed : Bool := false
  ignored : Bool := false
deriving Repr, DecidableEq

/-- The `git2::StatusOptions` fields set by the code. -/
structure StatusOptions where
  includeUntracked : Bool
  includeIgnored : Bool
  renamesHeadToIndex : Bool
  renamesIndexToWorkdir : Bool
deriving Repr, DecidableEq

/-- An opened `git2::Repository`, embedded as the results of the queries
`check_remote_sync` and `get_repository_status_with_fetch` perform on it:
`repo.head()` (`none` models `Err`), `repo.find_reference(name)` (outer
`none` models `Err`, inner option is `ref.target()`), `repo.merge_base`
(`none` models `Err`), and the raw status entry list (`none` models
`repo.statuses` returning `Err`). -/
structure Git2Repository where
  headRes : Option RepoHead
  refs : String → Option (Option Oid)
  mergeBase : Oid → Oid → Option Oid
  entries : Option (List StatusEntry)

/-- Error code attached to a failing `git2::Repository::open`, as far as
the code inspects it (`ErrorCode::NotFound` versus anything else). -/
inductive Git2ErrorCode where
  | notFound
  | otherCode
deriving Repr, DecidableEq

/-- Outcome of `git2::Repository::open` for a candidate path. -/
inductive OpenResult where
  | failed (code : Git2ErrorCode)
  | opened (repo : Git2Repository)

/-- The `PendectorError` enum of `src/error.rs`, with `Box<dyn Error>`
sources reduced to their role in the claims (they are never inspected). -/
inductive PendectorError where
  | gitRepositoryNotFound (path : String)
  | gitOperationFailed (repoPath operation : String)
  | fileSystemError (path message : String)
  | invalidPath (path : String)
  | scanError (path : String)
  | formatError (msg : String)
  | configError (path message : String)
  | networkError (repoPath message : String)
  | timeoutError (repoPath : String) (timeoutSecs : Nat)
  | authenticationError (repoPath message : String)
deriving Repr, DecidableEq

/-- The `RepoStatus` struct of `src/git/status.rs`. -/
structure RepoStatus where
  hasChanges : Bool
  currentBranch : Option String
  changedFiles : List String
  needsPull : Bool
  needsPush : Bool
  remoteBranch : Option String
deriving Repr, DecidableEq

/-- Behaviour of the spawned `timeout Ns git fetch --all --quiet` process:
either the OS fails to spawn it, fails while waiting on it, or it runs to
completion with an exit status (`success`, numeric code) and captured
stderr. The external `timeout(1)` utility reports expiry of the wall-clock
bound as exit code 124. -/
inductive SpawnResult where
  | spawnErr (msg : String)
  | waitErr (msg : String)
  | completed (success : Bool) (exitCode : Option Int) (stderr : String)
deriving Repr, DecidableEq

/-- Leading-match test on character lists: `pat` matches the front of
`s`. -/
def leadMatch : List Char → List Char → Bool
  | [], _ => true
  | _ :: _, [] => false
  | p :: ps, c :: cs => p == c && leadMatch ps cs

/-- Occurrence test on character lists: `pat` occurs somewhere in `s`. -/
def containsSubAux (pat : List Char) : List Char → Bool
  | [] => leadMatch pat []
  | c :: cs => leadMatch pat (c :: cs) || containsSubAux pat cs

/-- Substring containment, modelling Rust `str::contains`. -/
def containsSubstr (s pat : String) : Bool :=
  containsSubAux pat.data s.data

/-- Split a character list on the `/` separator. -/
def splitSlash : List Char → List (List Char)
  | [] => [[]]
  | c :: cs =>
    if c == '/' then [] :: splitSlash cs
    else
      match splitSlash cs with
      | r :: rs => (c :: r) :: rs
      | [] => [[c]]

/-- Last non-empty component of a slash-separated path, modelling
`Path::file_name` on the paths the code builds (`..` has no file name). -/
def pathFileName (p : String) : Option String :=
  match ((splitSlash p.data).filter (fun c => ¬ c = [])).getLast? with
  | some c => if String.mk c = ".." then none else some (String.mk c)
  | none => none

/-- Whitespace test backing the model of `str::trim` (the ASCII
whitespace that can occur in the messages concerned). -/
def isWhiteChar (c : Char) : Bool :=
  c == ' ' || c == '\t' || c == '\n' || c == '\r'

/-- Model of Rust `str::trim`: drop whitespace from both ends. -/
def strTrim (s : String) : String :=
  String.mk (((s.data.dropWhile isWhiteChar).reverse.dropWhile
    isWhiteChar).reverse)

/-- Repository display name used in fetch errors: `file_name` of the path,
defaulting to "unknown" (`src/error.rs`, `from_fetch_error`). -/
def fetchRepoName (p : String) : String :=
  (pathFileName p).getD "unknown"

/-- The `PendectorError::from_fetch_error` classifier of `src/error.rs`:
exit code 124 means timeout (seconds filled in by the caller), otherwise
known substrings of stderr select the error, a non-empty unmatched message
is retained raw, and an empty one yields a generic fetch failure. -/
def fromFetchError (repoPath : String) (stderr : String) (exitCode : Option Int) :
    PendectorError :=
  let repoName := fetchRepoName repoPath
  if exitCode = some 124 then
    .timeoutError repoName 0
  else if containsSubstr stderr "Repository not found" then
    .networkError repoName "Remote repository not found"
  else if containsSubstr stderr "Could not read from remote" ||
      containsSubstr stderr "Authentication failed" then
    .authenticationError repoName "Authentication or access denied"
  else if containsSubstr stderr "Network is unreachable" ||
      containsSubstr stderr "Temporary failure" then
    .networkError repoName "Network error"
  else if ¬ strTrim stderr = "" then
    .networkError repoName (strTrim stderr)
  else
    .networkError repoName "Failed to fetch from remote"

/-- The `GitStatus::perform_fetch_with_timeout` function. The `Except`
error carries the spawn/wait failures the Rust propagates with `?`; the
`Option PendectorError` in the success case models the classified fetch
failure the Rust prints as a warning (`eprintln!`) before returning
`Ok(())` — `none` when the command succeeded. A timeout error has its
seconds overwritten with the configured value. -/
def performFetchWithTimeout (repoPath : String) (timeoutSecs : Nat)
    (env : SpawnResult) : Except PendectorError (Option PendectorError) :=
  match env with
  | .spawnErr m => .error (.fileSystemError repoPath ("spawn git fetch: " ++ m))
  | .waitErr m => .error (.fileSystemError repoPath ("wait for git fetch: " ++ m))
  | .completed success exitCode stderr =>
    if success then
      .ok none
    else
      let e := fromFetchError repoPath stderr exitCode
      let e := match e with
        | .timeoutError rp _ => .timeoutError rp timeoutSecs
        | other => other
      .ok (some e)

/-- The `GitStatus::check_remote_sync` function: nested lookups of HEAD,
branch shorthand, local tip, the `refs/remotes/origin/<branch>` reference
and its target; when both tips exist and differ, a merge-base case
analysis sets the flags, and a failing merge-base computation counts as
divergence. Every path returns `Ok`. -/
def checkRemoteSync (repo : Git2Repository) :
    Except PendectorError (Bool × Bool × Option String) :=
  match repo.headRes with
  | none => .ok (false, false, none)
  | some head =>
    match head.branchName with
    | none => .ok (false, false, none)
    | some branchName =>
      match head.target with
      | none => .ok (false, false, none)
      | some localOid =>
        match repo.refs ("refs/remotes/" ++ ("origin/" ++ branchName)) with
        | none => .ok (false, false, none)
        | some refTarget =>
          match refTarget with
          | none => .ok (false, false, some ("origin/" ++ branchName))
          | some remoteOid =>
            if localOid = remoteOid then
              .ok (false, false, some ("origin/" ++ branchName))
            else
              match repo.mergeBase localOid remoteOid with
              | some baseOid =>
                if baseOid = localOid ∧ ¬ baseOid = remoteOid then
                  .ok (true, false, some ("origin/" ++ branchName))
                else if baseOid = remoteOid ∧ ¬ baseOid = localOid then
                  .ok (false, true, some ("origin/" ++ branchName))
                else if ¬ baseOid = localOid ∧ ¬ baseOid = remoteOid then
                  .ok (true, true, some ("origin/" ++ branchName))
                else
                  .ok (false, false, some ("origin/" ++ branchName))
              | none =>
                .ok (true, true, some ("origin/" ++ branchName))

/-- The status options set by `get_repository_status_with_fetch`:
untracked included, ignored excluded, no rename detection. -/
def statusOpts : StatusOptions :=
  { includeUntracked := true
    includeIgnored := false
    renamesHeadToIndex := false
    renamesIndexToWorkdir := false }

/-- Which raw status entries `repo.statuses(opts)` reports: an ignored
entry only under `include_ignored`, an untracked (`wtNew`) entry only
under `include_untracked`. -/
def statusList (opts : StatusOptions) (raw : List StatusEntry) : List StatusEntry :=
  raw.filter (fun e => (!e.ignored || opts.includeIgnored) &&
    (!e.wtNew || opts.includeUntracked))

/-- Three-character marker prepended to a changed file, exactly the
if-chain of `get_repository_status_with_fetch`. -/
def statusMark (e : StatusEntry) : String :=
  if e.wtNew || e.indexNew then "?? "
  else if e.wtModified || e.indexModified then " M "
  else if e.wtDeleted || e.indexDeleted then " D "
  else if e.wtRenamed || e.indexRenamed then " R "
  else "   "

/-- The `changed_files` list: entries whose `path()` is present, marked;
entries without a representable path are dropped. -/
def changedFilesOf (sts : List StatusEntry) : List String :=
  sts.filterMap (fun e => e.path.map (fun p => statusMark e ++ p))

/-- The `GitStatus::get_repository_status_with_fetch` function: open the
repository (mapping a `NotFound` open failure to `GitRepositoryNotFound`),
optionally fetch first with the default 5 second timeout (propagating only
spawn/wait errors), read branch, statuses and remote sync, and assemble a
`RepoStatus`. -/
def getRepositoryStatusWithFetch (repoPath : String) (openRes : OpenResult)
    (fetchEnv : SpawnResult) (shouldFetch : Bool) :
    Except PendectorError RepoStatus :=
  match openRes with
  | .failed code =>
    .error (if code = .notFound then .gitRepositoryNotFound repoPath
            else .gitOperationFailed repoPath "open repository")
  | .opened repo =>
    match (if shouldFetch then performFetchWithTimeout repoPath 5 fetchEnv
           else .ok none) with
    | .error e => .error e
    | .ok _ =>
      let currentBranch := match repo.headRes with
        | some h => h.branchName
        | none => none
      match repo.entries with
      | none => .error (.gitOperationFailed repoPath "get status")
      | some raw =>
        let sts := statusList statusOpts raw
        let hasChanges := !sts.isEmpty
        let files := changedFilesOf sts
        match checkRemoteSync repo with
        | .error e => .error e
        | .ok (needsPull, needsPush, remoteBranch) =>
          .ok { hasChanges := hasChanges
                currentBranch := currentBranch
                changedFiles := files
                needsPull := needsPull
                needsPush := needsPush
                remoteBranch := remoteBranch }

/-- The `GitStatus::get_repository_status` wrapper (no fetch). -/
def getRepositoryStatus (repoPath : String) (openRes : OpenResult) :
    Except PendectorError RepoStatus :=
  getRepositoryStatusWithFetch repoPath openRes (.completed true (some 0) "") false

/-- A filesystem entry as `walkdir` sees it (symbolic links are not
followed by the scanner, so they are not modelled): a plain file or a
directory with its children. -/
inductive FsEntry where
  | file (name : String)
  | dir (name : String) (children : List FsEntry)
deriving Repr

/-- Name of a filesystem entry (`entry.file_name()`). -/
def entryName : FsEntry → String
  | .file n => n
  | .dir _n _ => _n

/-- Kind test of a filesystem entry (`entry.file_type().is_dir()`). -/
def entryIsDir : FsEntry → Bool
  | .file _ => false
  | .dir _ _ => true

mutual

/-- Entries yielded by `WalkDir::new(p).max_depth(d)` rooted at entry `e`
with full path `p` (a list of components): the root at depth 0 together
with every entry at depth at most `d`, in depth-first order. -/
def walkDir (d : Nat) (p : List String) (e : FsEntry) :
    List (List String × FsEntry) :=
  match e with
  | .file n => [(p, .file n)]
  | .dir n cs =>
    (p, .dir n cs) :: (if d = 0 then [] else walkSib (d - 1) p cs)

/-- Walk of a list of sibling entries whose parent directory has full
path `p` and whose own entries may be explored `d` more levels. -/
def walkSib (d : Nat) (p : List String) : List FsEntry →
    List (List String × FsEntry)
  | [] => []
  | c :: cs => walkDir d (p ++ [entryName c]) c ++ walkSib d p cs

end

/-- Parent of a path (`Path::parent`), absent for the empty path. -/
def parentPath (p : List String) : Option (List String) :=
  match p with
  | [] => none
  | _ => some p.dropLast

/-- Repository-path collection phase of `RepoScanner::scan_with_options`:
walk the tree up to `max_depth`, keep the entries that are directories
named `.git`, and map each to its parent path. -/
def scanRepoPaths (basePath : List String) (root : FsEntry) (maxDepth : Nat) :
    List (List String) :=
  (walkDir maxDepth basePath root).filterMap (fun pe =>
    if entryIsDir pe.2 && entryName pe.2 == ".git" then parentPath pe.1
    else none)

/-- The `Repository` struct of `src/core/repo.rs` together with the
remote fields its `with_remote_info` consumer in the scanner fills in. -/
structure Repository where
  path : List String
  name : String
  hasChanges : Bool
  currentBranch : Option String
  changedFiles : List String
  needsPull : Bool
  needsPush : Bool
  remoteBranch : Option String
deriving Repr, DecidableEq

/-- The `Repository::new` constructor: display name from the final path
segment (the current-working-directory fallback for segmentless paths is
environment dependent and out of this model), all status fields at their
defaults. -/
def Repository.new (p : List String) : Repository :=
  { path := p
    name := (p.getLast?).getD ""
    hasChanges := false
    currentBranch := none
    changedFiles := []
    needsPull := false
    needsPush := false
    remoteBranch := none }

/-- The `Repository::with_git_info` builder. -/
def Repository.withGitInfo (r : Repository) (hasChanges : Bool)
    (branch : Option String) (files : List String) : Repository :=
  { r with hasChanges := hasChanges, currentBranch := branch,
           changedFiles := files }

/-- Modelled from the spec: `Repository::with_remote_info`, called by the
scanner but absent from the `repo.rs` snapshot — per §3 it copies the
SyncState fields (`needs_pull`, `needs_push`, `remote_branch`) into the
report. -/
def Repository.withRemoteInfo (r : Repository) (needsPull needsPush : Bool)
    (remoteBranch : Option String) : Repository :=
  { r with needsPull := needsPull, needsPush := needsPush,
           remoteBranch := remoteBranch }

/-- Join path components into the string handed to the status reader. -/
def pathStringOf (p : List String) : String :=
  String.intercalate "/" p

/-- Status-collection phase of `RepoScanner::scan_with_options`: for every
collected repository path build a `Repository`, attach git and remote
information when the status read succeeds, and keep the entry either way
(the `filter_map` closure always returns `Some`). `env` gives the
`git2::Repository::open` outcome per path. -/
def scanStatuses (env : List String → OpenResult) (paths : List (List String)) :
    List Repository :=
  paths.map (fun p =>
    let r := Repository.new p
    match getRepositoryStatus (pathStringOf p) (env p) with
    | .ok st =>
      (r.withGitInfo st.hasChanges st.currentBranch st.changedFiles).withRemoteInfo
        st.needsPull st.needsPush st.remoteBranch
    | .error _ => r)

/-- Full `RepoScanner::scan_with_options` with `should_fetch = false`:
collect repository paths, then statuses. -/
def scanWithOptions (env : List String → OpenResult) (basePath : List String)
    (root : FsEntry) (maxDepth : Nat) : List Repository :=
  scanStatuses env (scanRepoPaths basePath root maxDepth)

mutual

/-- Subtree of a filesystem entry at a relative component path: `[]` is
the entry itself, and each component selects the first child of that name
inside a directory. -/
def subtreeAt (e : FsEntry) (r : List String) : Option FsEntry :=
  match r with
  | [] => some e
  | n :: rest =>
    match e with
    | .file _ => none
    | .dir _ cs => subtreeIn cs n rest

/-- Descent helper for `subtreeAt`: first sibling named `n`, then the
remaining components. -/
def subtreeIn (cs : List FsEntry) (n : String) (rest : List String) :
    Option FsEntry :=
  match cs with
  | [] => none
  | c :: cs2 =>
    if entryName c == n then subtreeAt c rest else subtreeIn cs2 n rest

end

/-- Abstract classification of a non-timeout fetch failure, following the
words of spec §4.4: remote does not exist, credential or access denial,
connectivity failure, or a generic fetch failure. -/
inductive FetchErrorKind where
  | repositoryUnreachable
  | authenticationFailed
  | networkError
  | fetchFailed
deriving Repr, DecidableEq

/-- Spec-side classifier (spec §4.4, written from the spec's words, to be
compared with `fromFetchError`): match known substrings of the failure
output in priority order, with every unmatched message falling back to
the generic kind. -/
def specFetchClassify (stderr : String) : FetchErrorKind :=
  if containsSubstr stderr "Repository not found" then
    .repositoryUnreachable
  else if containsSubstr stderr "Could not read from remote" ||
      containsSubstr stderr "Authentication failed" then
    .authenticationFailed
  else if containsSubstr stderr "Network is unreachable" ||
      containsSubstr stderr "Temporary failure" then
    .networkError
  else
    .fetchFailed

/-- Proposition that `x` is the subtree of `e` reached by descending
through children whose names are the components of `r`. Unlike
`subtreeAt` this admits any like-named sibling, so it is exactly the set
of entries the walk can reach. -/
inductive SubtreeRel : FsEntry → List String → FsEntry → Prop where
  | refl (e : FsEntry) : SubtreeRel e [] e
  | step {name : String} {cs : List FsEntry} {c : FsEntry}
      {r : List String} {x : FsEntry} :
      c ∈ cs → SubtreeRel c r x →
      SubtreeRel (.dir name cs) (entryName c :: r) x

/-- Test tree with a repository root two levels below the scan root: the
`.git` metadata directory sits at depth 3. -/
def twoDeepTree : FsEntry :=
  .dir "base" [.dir "a" [.dir "repo" [.dir ".git" []]]]

/-- Test tree whose scan root is itself a repository root. -/
def rootRepoTree : FsEntry :=
  .dir "base" [.dir ".git" []]

/-- Test tree with a directory named `.git` nested inside a `.git`
directory. -/
def nestedGitTree : FsEntry :=
  .dir "base" [.dir ".git" [.dir ".git" []]]

/-- Concrete repository for the C1 witness: tips 1 and 2 with merge base
equal to the local tip 1. -/
def repoC1w : Git2Repository :=
  { headRes := some { branchName := some "main", target := some 1 }
    refs := fun n => if n = "refs/remotes/origin/main" then some (some 2)
                     else none
    mergeBase := fun a b => if a = 1 ∧ b = 2 then some 1 else none
    entries := some [] }

/-- Concrete repository for the C2 witness: tips 1 and 2 with no merge
base (disjoint histories). -/
def repoC2w : Git2Repository :=
  { headRes := some { branchName := some "main", target := some 1 }
    refs := fun n => if n = "refs/remotes/origin/main" then some (some 2)
                     else none
    mergeBase := fun a b => if a = b then some a else none
    entries := some [] }

/-- Ancestry relation for the C2 witness: each commit is an ancestor only
of itself, consistent with `repoC2w.mergeBase`. -/
def ancC2w (a b : Oid) : Bool :=
  a == b

/-- Status report `getRepositoryStatus` computes for `repoC2w`. -/
def stC2w : RepoStatus :=
  { hasChanges := false
    currentBranch := some "main"
    changedFiles := []
    needsPull := true
    needsPush := true
    remoteBranch := some "origin/main" }

/-- Concrete repository for the C10 witness: remote reference present but
without a target. -/
def repoC10w : Git2Repository :=
  { headRes := some { branchName := some "dev", target := some 7 }
    refs := fun n => if n = "refs/remotes/origin/dev" then some none
                     else none
    mergeBase := fun _ _ => none
    entries := some [] }

/-- Repository with nothing readable, used where only the fetch path of a
status read matters. -/
def emptyRepo : Git2Repository :=
  { headRes := none
    refs := fun _ => none
    mergeBase := fun _ _ => none
    entries := some [] }

/-- Open-result environment in which every path fails to open with
`ErrorCode::NotFound` (no usable `.git` metadata). -/
def envNotFound : List String → OpenResult :=
  fun _ => .failed .notFound

/-- Raw status entries for the C9 witness: one modified tracked file and
one ignored file. -/
def rawC9w : List StatusEntry :=
  [{ path := some "src/main.rs", wtModified := true },
   { path := some "target/out", ignored := true }]

/-- Concrete repository for the C9 witness. -/
def repoC9w : Git2Repository :=
  { headRes := some { branchName := some "main", target := none }
    refs := fun _ => none
    mergeBase := fun _ _ => none
    entries := some rawC9w }

/-- Status report `getRepositoryStatus` computes for `repoC9w`. -/
def stC9w : RepoStatus :=
  { hasChanges := true
    currentBranch := some "main"
    changedFiles := [" M src/main.rs"]
    needsPull := false
    needsPush := false
    remoteBranch := none }

/-- Repository whose single status entry has a path that is not valid
UTF-8 (`entry.path()` returns `None`), for the C9 counterexample. -/
def repoNoUtf8 : Git2Repository :=
  { headRes := none
    refs := fun _ => none
    mergeBase := fun _ _ => none
    entries := some [{ path := none, wtModified := true }] }

/-- Status report `getRepositoryStatus` computes for `repoNoUtf8`:
changes reported, yet the changed-file list is empty. -/
def stNoUtf8 : RepoStatus :=
  { hasChanges := true
    currentBranch := none
    changedFiles := []
    needsPull := false
    needsPush := false
    remoteBranch := none }

/-! Helper lemmas about `checkRemoteSync`. -/

/-- Every execution of `check_remote_sync` returns `Ok`. -/
theorem checkRemoteSync_ok (repo : Git2Repository) :
    ∃ r, checkRemoteSync repo = .ok r := by
  unfold checkRemoteSync
  repeat' split
  all_goals exact ⟨_, rfl⟩

/-- When a sync result has no remote branch, both flags are false. -/
theorem checkRemoteSync_none_flags (repo : Git2Repository) (p q : Bool)
    (h : checkRemoteSync repo = .ok (p, q, none)) :
    p = false ∧ q = false := by
  unfold checkRemoteSync at h
  repeat' split at h
  all_goals simp_all

/-- Value of `check_remote_sync` once all lookups succeed, in terms of the
tips and the merge-base result. -/
theorem checkRemoteSync_lookup_eq (repo : Git2Repository) (head : RepoHead)
    (bn : String) (lo ro : Oid)
    (h1 : repo.headRes = some head) (h2 : head.branchName = some bn)
    (h3 : head.target = some lo)
    (h4 : repo.refs ("refs/remotes/" ++ ("origin/" ++ bn)) = some (some ro)) :
    (lo = ro →
      checkRemoteSync repo = .ok (false, false, some ("origin/" ++ bn))) ∧
    (∀ b, ¬ lo = ro → repo.mergeBase lo ro = some b →
      checkRemoteSync repo =
        .ok (!decide (b = ro), !decide (b = lo), some ("origin/" ++ bn))) ∧
    (¬ lo = ro → repo.mergeBase lo ro = none →
      checkRemoteSync repo = .ok (true, true, some ("origin/" ++ bn))) := by
  refine ⟨?_, ?_, ?_⟩
  · intro heq
    simp [checkRemoteSync, h1, h2, h3, h4, heq]
  · intro b hne hmb
    have hne2 : ¬ ro = lo := fun h => hne h.symm
    simp only [checkRemoteSync, h1, h2, h3, h4, hmb, if_neg hne]
    by_cases hbl : b = lo <;> by_cases hbr : b = ro
    · exact absurd (hbl ▸ hbr) hne
    · simp [hbl, hbr, hne, hne2]
    · simp [hbl, hbr, hne, hne2]
    · simp [hbl, hbr, hne, hne2]
  · intro hne hmb
    simp only [checkRemoteSync, h1, h2, h3, h4, hmb, if_neg hne]

/-- C1: whenever a remote tracking ref `origin/<branch>` exists with a
target and the local and remote tips differ, `check_remote_sync` sets the
sync flags by merge-base case analysis — base equal to the local tip gives
only `needs_pull`, base equal to the remote tip gives only `needs_push`,
and base equal to neither tip, or no computable merge base at all, gives
both flags. -/
theorem checkRemoteSync_mergeBase_cases
    (repo : Git2Repository) (head : RepoHead) (bn : String) (lo ro : Oid)
    (h1 : repo.headRes = some head) (h2 : head.branchName = some bn)
    (h3 : head.target = some lo)
    (h4 : repo.refs ("refs/remotes/" ++ ("origin/" ++ bn)) = some (some ro))
    (hne : ¬ lo = ro) :
    (repo.mergeBase lo ro = some lo →
      checkRemoteSync repo = .ok (true, false, some ("origin/" ++ bn))) ∧
    (repo.mergeBase lo ro = some ro →
      checkRemoteSync repo = .ok (false, true, some ("origin/" ++ bn))) ∧
    (∀ b, repo.mergeBase lo ro = some b → ¬ b = lo → ¬ b = ro →
      checkRemoteSync repo = .ok (true, true, some ("origin/" ++ bn))) ∧
    (repo.mergeBase lo ro = none →
      checkRemoteSync repo = .ok (true, true, some ("origin/" ++ bn))) := by
  obtain ⟨-, hsome, hnone⟩ :=
    checkRemoteSync_lookup_eq repo head bn lo ro h1 h2 h3 h4
  refine ⟨?_, ?_, ?_, ?_⟩
  · intro hmb
    simpa [hne] using hsome lo hne hmb
  · intro hmb
    have hne2 : ¬ ro = lo := fun h => hne h.symm
    simpa [hne2] using hsome ro hne hmb
  · intro b hmb hbl hbr
    simpa [hbl, hbr] using hsome b hne hmb
  · intro hmb
    exact hnone hne hmb

/-- Witness for C1 at `repoC1w`: the merge base equals the local tip, so
only `needs_pull` is reported. -/
theorem checkRemoteSync_mergeBase_cases_witness :
    checkRemoteSync repoC1w = .ok (true, false, some "origin/main") := by
  have h := (checkRemoteSync_mergeBase_cases repoC1w
      { branchName := some "main", target := some 1 } "main" 1 2
      rfl rfl rfl rfl (by decide)).1 rfl
  exact h

/-- C10: `check_remote_sync` is infallible — every execution returns `Ok`
— and each failing lookup (unreadable HEAD, missing branch shorthand,
missing local tip, absent remote tracking reference, remote reference
without a target) silently leaves both flags false rather than producing
an error; only a failed merge-base computation produces flags, namely
both true. -/
theorem checkRemoteSync_infallible (repo : Git2Repository) :
    (∃ r, checkRemoteSync repo = .ok r) ∧
    (repo.headRes = none → checkRemoteSync repo = .ok (false, false, none)) ∧
    (∀ head, repo.headRes = some head → head.branchName = none →
      checkRemoteSync repo = .ok (false, false, none)) ∧
    (∀ head bn, repo.headRes = some head → head.branchName = some bn →
      head.target = none → checkRemoteSync repo = .ok (false, false, none)) ∧
    (∀ head bn lo, repo.headRes = some head → head.branchName = some bn →
      head.target = some lo →
      repo.refs ("refs/remotes/" ++ ("origin/" ++ bn)) = none →
      checkRemoteSync repo = .ok (false, false, none)) ∧
    (∀ head bn lo, repo.headRes = some head → head.branchName = some bn →
      head.target = some lo →
      repo.refs ("refs/remotes/" ++ ("origin/" ++ bn)) = some none →
      checkRemoteSync repo = .ok (false, false, some ("origin/" ++ bn))) ∧
    (∀ head bn lo ro, repo.headRes = some head → head.branchName = some bn →
      head.target = some lo →
      repo.refs ("refs/remotes/" ++ ("origin/" ++ bn)) = some (some ro) →
      ¬ lo = ro → repo.mergeBase lo ro = none →
      checkRemoteSync repo = .ok (true, true, some ("origin/" ++ bn))) := by
  refine ⟨checkRemoteSync_ok repo, ?_, ?_, ?_, ?_, ?_, ?_⟩ <;>
    intros <;> simp_all [checkRemoteSync]

/-- Witness for C10 at `repoC10w`: the remote reference exists but has no
target, so the lookup failure silently yields both flags false. -/
theorem checkRemoteSync_infallible_witness :
    checkRemoteSync repoC10w = .ok (false, false, some "origin/dev") := by
  have h := (checkRemoteSync_infallible repoC10w).2.2.2.2.2.1
      { branchName := some "dev", target := some 7 } "dev" 7 rfl rfl rfl rfl
  exact h

/-- Fields of a successfully read `RepoStatus` in terms of the opened
repository: change flag and file list from the filtered status entries,
and sync fields from `check_remote_sync`. -/
theorem getStatus_ok_fields (path : String) (repo : Git2Repository)
    (fetchEnv : SpawnResult) (shouldFetch : Bool) (raw : List StatusEntry)
    (st : RepoStatus) (hraw : repo.entries = some raw)
    (hres : getRepositoryStatusWithFetch path (.opened repo) fetchEnv
      shouldFetch = .ok st) :
    st.hasChanges = !(statusList statusOpts raw).isEmpty ∧
    st.changedFiles = changedFilesOf (statusList statusOpts raw) ∧
    checkRemoteSync repo = .ok (st.needsPull, st.needsPush, st.remoteBranch) := by
  simp only [getRepositoryStatusWithFetch, hraw] at hres
  split at hres
  · exact absurd hres (by simp)
  · split at hres
    · exact absurd hres (by simp)
    · rename_i heq
      cases hres
      exact ⟨rfl, rfl, heq⟩

/-- C2: every `RepoStatus` produced by a successful status read satisfies
the SyncState invariant, for any ancestry relation `anc` consistent with
the repository's merge-base function (the merge base of an ancestor and
its descendant is the ancestor): both flags false when `remote_branch` is
absent, both false when the tips are identical, exactly one when one side
is a strict ancestor of the other, and both only when the tips have
diverged. -/
theorem repoStatus_syncState_invariant
    (anc : Oid → Oid → Bool) (path : String) (fetchEnv : SpawnResult)
    (shouldFetch : Bool) (repo : Git2Repository) (raw : List StatusEntry)
    (st : RepoStatus) (hraw : repo.entries = some raw)
    (hres : getRepositoryStatusWithFetch path (.opened repo) fetchEnv
      shouldFetch = .ok st)
    (hmb1 : ∀ a b, anc a b = true → repo.mergeBase a b = some a)
    (hmb2 : ∀ a b, anc b a = true → repo.mergeBase a b = some b) :
    (st.remoteBranch = none → st.needsPull = false ∧ st.needsPush = false) ∧
    (∀ head bn lo ro, repo.headRes = some head → head.branchName = some bn →
      head.target = some lo →
      repo.refs ("refs/remotes/" ++ ("origin/" ++ bn)) = some (some ro) →
      ((lo = ro → st.needsPull = false ∧ st.needsPush = false) ∧
       (anc lo ro = true → ¬ lo = ro →
         st.needsPull = true ∧ st.needsPush = false) ∧
       (anc ro lo = true → ¬ lo = ro →
         st.needsPull = false ∧ st.needsPush = true) ∧
       (st.needsPull = true → st.needsPush = true →
         anc lo ro = false ∧ anc ro lo = false))) := by
  obtain ⟨-, -, hsync⟩ :=
    getStatus_ok_fields path repo fetchEnv shouldFetch raw st hraw hres
  obtain ⟨hc, cb, cf, pl, ps, rb⟩ := st
  constructor
  · intro hrb
    rw [hrb] at hsync
    exact checkRemoteSync_none_flags repo _ _ hsync
  · intro head bn lo ro h1 h2 h3 h4
    obtain ⟨heq, hsome, hnone⟩ :=
      checkRemoteSync_lookup_eq repo head bn lo ro h1 h2 h3 h4
    refine ⟨?_, ?_, ?_, ?_⟩
    · intro hlr
      rw [heq hlr] at hsync
      cases hsync
      exact ⟨rfl, rfl⟩
    · intro hanc hne
      have h := hsome lo hne (hmb1 lo ro hanc)
      rw [h] at hsync
      cases hsync
      simp [hne]
    · intro hanc hne
      have hne2 : ¬ ro = lo := fun h => hne h.symm
      have h := hsome ro hne (hmb2 lo ro hanc)
      rw [h] at hsync
      cases hsync
      simp [hne2]
    · intro hpull hpush
      constructor
      · by_contra hc
        have hanc : anc lo ro = true := by
          cases hh : anc lo ro with
          | true => rfl
          | false => exact absurd hh hc
        by_cases hne : lo = ro
        · rw [heq hne] at hsync
          cases hsync
          exact absurd hpull (by simp)
        · have h := hsome lo hne (hmb1 lo ro hanc)
          rw [h] at hsync
          cases hsync
          exact absurd hpush (by simp)
      · by_contra hc
        have hanc : anc ro lo = true := by
          cases hh : anc ro lo with
          | true => rfl
          | false => exact absurd hh hc
        by_cases hne : lo = ro
        · rw [heq hne] at hsync
          cases hsync
          exact absurd hpull (by simp)
        · have hne2 : ¬ ro = lo := fun h => hne h.symm
          have h := hsome ro hne (hmb2 lo ro hanc)
          rw [h] at hsync
          cases hsync
          exact absurd hpull (by simp [hne2])

/-- Witness for C2 at `repoC2w` with the reflexive ancestry `ancC2w`:
the hypotheses hold, the read succeeds with report `stC2w`, and the
diverged conjunct yields that neither differing tip is an ancestor of the
other. -/
theorem repoStatus_syncState_invariant_witness :
    ancC2w 1 2 = false ∧ ancC2w 2 1 = false := by
  have hmb1 : ∀ a b, ancC2w a b = true → repoC2w.mergeBase a b = some a := by
    intro a b hab
    have hab2 : a = b := by simpa [ancC2w] using hab
    subst hab2
    simp [repoC2w]
  have hmb2 : ∀ a b, ancC2w b a = true → repoC2w.mergeBase a b = some b := by
    intro a b hab
    have hab2 : b = a := by simpa [ancC2w] using hab
    subst hab2
    simp [repoC2w]
  have h := (repoStatus_syncState_invariant ancC2w "work/repo"
      (.completed true (some 0) "") false repoC2w [] stC2w rfl rfl hmb1 hmb2).2
      { branchName := some "main", target := some 1 } "main" 1 2
      rfl rfl rfl rfl
  exact h.2.2.2 rfl rfl

/-- Change markers drop nothing when every entry has a representable
path: the marked file list is empty exactly when the entry list is. -/
theorem changedFilesOf_eq_nil_iff (sts : List StatusEntry)
    (hp : ∀ e ∈ sts, e.path ≠ none) :
    changedFilesOf sts = [] ↔ sts = [] := by
  cases sts with
  | nil => simp [changedFilesOf]
  | cons e l =>
    have hep := hp e (List.mem_cons_self e l)
    rcases hpath : e.path with _ | pstr
    · exact absurd hpath hep
    · simp [changedFilesOf, hpath]

/-- C9 (amended): for every successful status read, `has_changes` is true
iff the reported status-entry set is non-empty, where untracked entries
are included and ignored entries are excluded; `changed_files` lists the
entries with representable paths, so `has_changes` agrees with
`changed_files` being non-empty provided every reported entry's path is
valid UTF-8. -/
theorem hasChanges_iff_changed_set (path : String) (repo : Git2Repository)
    (fetchEnv : SpawnResult) (shouldFetch : Bool) (raw : List StatusEntry)
    (st : RepoStatus) (hraw : repo.entries = some raw)
    (hres : getRepositoryStatusWithFetch path (.opened repo) fetchEnv
      shouldFetch = .ok st) :
    statusList statusOpts raw = raw.filter (fun e => !e.ignored) ∧
    (st.hasChanges = true ↔ statusList statusOpts raw ≠ []) ∧
    st.changedFiles = changedFilesOf (statusList statusOpts raw) ∧
    ((∀ e ∈ statusList statusOpts raw, e.path ≠ none) →
      (st.hasChanges = true ↔ st.changedFiles ≠ [])) := by
  obtain ⟨h1, h2, -⟩ :=
    getStatus_ok_fields path repo fetchEnv shouldFetch raw st hraw hres
  have hopts : statusList statusOpts raw = raw.filter (fun e => !e.ignored) := by
    simp [statusList, statusOpts]
  refine ⟨hopts, ?_, h2, ?_⟩
  · rw [h1]
    simp [List.isEmpty_iff]
  · intro hp
    rw [h1, h2]
    have hiff := changedFilesOf_eq_nil_iff (statusList statusOpts raw) hp
    constructor
    · intro hb hnil
      rw [hiff.mp hnil] at hb
      simp at hb
    · intro hne
      have : ¬ statusList statusOpts raw = [] := fun h => hne (by rw [h]; rfl)
      simp [List.isEmpty_iff, this]

/-- Witness for C9 at `repoC9w`: one modified file, one ignored file; the
filtered set keeps only the former and the equivalence holds. -/
theorem hasChanges_iff_changed_set_witness :
    statusList statusOpts rawC9w = rawC9w.filter (fun e => !e.ignored) ∧
    (stC9w.hasChanges = true ↔ stC9w.changedFiles ≠ []) := by
  have h := hasChanges_iff_changed_set "work/repo" repoC9w
      (.completed true (some 0) "") false rawC9w stC9w rfl rfl
  exact ⟨h.1, h.2.2.2 (by decide)⟩

/-- Counterexample for C9 as stated: a repository whose single modified
entry has a non-UTF-8 path yields `has_changes = true` while the returned
`changed_files` list is empty, so the two do not agree. -/
theorem hasChanges_changedFiles_disagree_cex :
    getRepositoryStatus "work/repo" (.opened repoNoUtf8) = .ok stNoUtf8 ∧
    stNoUtf8.hasChanges = true ∧ stNoUtf8.changedFiles = [] :=
  ⟨rfl, rfl, rfl⟩

/-- C3: when the spawned fetch exceeds the wall-clock bound — the external
`timeout(1)` wrapper kills it and reports exit code 124 — the recorded
outcome is exactly the `Timeout` error kind carrying the configured
timeout seconds, never a success and never a generic failure, whatever
stderr the command produced. -/
theorem fetch_timeout_outcome (path : String) (tsecs : Nat) (stderr : String) :
    performFetchWithTimeout path tsecs (.completed false (some 124) stderr) =
      .ok (some (.timeoutError (fetchRepoName path) tsecs)) := by
  simp [performFetchWithTimeout, fromFetchError]

/-- C6 (amended): every failure of the spawned fetch command — a non-zero
exit, timeout included — is captured as warning data and does not abort:
the fetch returns `Ok` for every completed command, and a status read
asked to fetch first returns the same report as one that does not fetch.
The only fetch failures raised to the caller, aborting a status read with
fetch, are operating-system failures to spawn or wait on the process. -/
theorem fetch_failure_captured :
    (∀ (path : String) (tsecs : Nat) (succ : Bool) (code : Option Int)
       (stderr : String),
      (performFetchWithTimeout path tsecs
        (.completed succ code stderr)).isOk = true) ∧
    (∀ (path : String) (tsecs : Nat) (env : SpawnResult) (e : PendectorError),
      performFetchWithTimeout path tsecs env = .error e →
      (∃ m, env = .spawnErr m) ∨ (∃ m, env = .waitErr m)) ∧
    (∀ (path : String) (openRes : OpenResult) (succ : Bool)
       (code : Option Int) (stderr : String),
      getRepositoryStatusWithFetch path openRes (.completed succ code stderr)
        true =
      getRepositoryStatusWithFetch path openRes (.completed succ code stderr)
        false) ∧
    (∀ (path : String) (repo : Git2Repository) (m : String),
      getRepositoryStatusWithFetch path (.opened repo) (.spawnErr m) true =
        .error (.fileSystemError path ("spawn git fetch: " ++ m))) := by
  refine ⟨?_, ?_, ?_, ?_⟩
  · intro path tsecs succ code stderr
    cases succ <;> rfl
  · intro path tsecs env e h
    cases env with
    | spawnErr m => exact .inl ⟨m, rfl⟩
    | waitErr m => exact .inr ⟨m, rfl⟩
    | completed succ code stderr =>
      exfalso
      cases succ <;> simp [performFetchWithTimeout] at h
  · intro path openRes succ code stderr
    cases openRes with
    | failed c => rfl
    | opened repo =>
      cases succ <;> simp [getRepositoryStatusWithFetch, performFetchWithTimeout]
  · intro path repo m
    rfl

/-- Witness for C6: a failed spawn is one of the two raised cases. -/
theorem fetch_failure_captured_witness :
    (∃ m, (SpawnResult.spawnErr "boom" : SpawnResult) = .spawnErr m) ∨
    (∃ m, (SpawnResult.spawnErr "boom" : SpawnResult) = .waitErr m) :=
  fetch_failure_captured.2.1 "p" 5 (.spawnErr "boom")
    (.fileSystemError "p" ("spawn git fetch: " ++ "boom")) rfl

/-- Counterexample for C6 as stated: a fetch failure — the OS cannot spawn
the fetch process — is raised to the caller of the status read as an
error, aborting it, instead of being captured as data in an outcome. -/
theorem fetch_spawn_failure_aborts_cex :
    getRepositoryStatusWithFetch "work/repo" (.opened emptyRepo)
      (.spawnErr "no such file") true =
      .error (.fileSystemError "work/repo" "spawn git fetch: no such file") :=
  rfl

/-- C8: for every non-timeout fetch failure, `from_fetch_error` realises
exactly the spec classification by first-match substring priority — the
remote-does-not-exist kind, the credential/access-denial kind, the
connectivity kind, or the generic kind retaining the raw (trimmed)
message, with every unmatched non-empty message falling back to the
generic kind (and an empty one given a fixed generic message). -/
theorem fromFetchError_matches_spec (path stderr : String) (code : Option Int)
    (hcode : ¬ code = some 124) :
    fromFetchError path stderr code =
      (match specFetchClassify stderr with
       | .repositoryUnreachable =>
         .networkError (fetchRepoName path) "Remote repository not found"
       | .authenticationFailed =>
         .authenticationError (fetchRepoName path)
           "Authentication or access denied"
       | .networkError => .networkError (fetchRepoName path) "Network error"
       | .fetchFailed =>
         .networkError (fetchRepoName path)
           (if strTrim stderr = "" then "Failed to fetch from remote"
            else strTrim stderr)) := by
  unfold fromFetchError specFetchClassify
  rw [if_neg hcode]
  cases h1 : containsSubstr stderr "Repository not found" with
  | true => simp [h1]
  | false =>
    cases h2 : (containsSubstr stderr "Could not read from remote" ||
        containsSubstr stderr "Authentication failed") with
    | true => simp [h1, h2]
    | false =>
      cases h3 : (containsSubstr stderr "Network is unreachable" ||
          containsSubstr stderr "Temporary failure") with
      | true => simp [h1, h2, h3]
      | false =>
        by_cases h4 : strTrim stderr = ""
        · simp [h1, h2, h3, h4]
        · simp [h1, h2, h3, h4]

/-- Witness for C8: an authentication-denial message with a non-timeout
exit code classifies to the credential kind. -/
theorem fromFetchError_matches_spec_witness :
    fromFetchError "work/myrepo" "fatal: Authentication failed" (some 128) =
      .authenticationError "myrepo" "Authentication or access denied" := by
  have h := fromFetchError_matches_spec "work/myrepo"
      "fatal: Authentication failed" (some 128) (by decide)
  rw [h]
  decide

/-- C5 (amended): a status read of a discovered path whose metadata is
missing or corrupt fails with the `RepositoryNotFound` error kind, not a
generic I/O error; the scan recovers locally without aborting by keeping
that repository in the returned results with default (empty) status
information — the entry count is preserved and the failing path
contributes its default `Repository` entry. -/
theorem scan_keeps_unreadable_repo (env : List String → OpenResult)
    (paths : List (List String)) :
    (scanStatuses env paths).length = paths.length ∧
    (∀ p, p ∈ paths → env p = .failed .notFound →
      getRepositoryStatus (pathStringOf p) (env p) =
        .error (.gitRepositoryNotFound (pathStringOf p)) ∧
      Repository.new p ∈ scanStatuses env paths) := by
  constructor
  · simp [scanStatuses]
  · intro p hp henv
    have herr : getRepositoryStatus (pathStringOf p) (env p) =
        .error (.gitRepositoryNotFound (pathStringOf p)) := by
      rw [henv]
      rfl
    refine ⟨herr, ?_⟩
    simp only [scanStatuses, List.mem_map]
    refine ⟨p, hp, ?_⟩
    simp only [herr]

/-- Witness for C5 at a concrete unreadable path. -/
theorem scan_keeps_unreadable_repo_witness :
    getRepositoryStatus (pathStringOf ["work", "repo"])
        (envNotFound ["work", "repo"]) =
      .error (.gitRepositoryNotFound (pathStringOf ["work", "repo"])) ∧
    Repository.new ["work", "repo"] ∈
      scanStatuses envNotFound [["work", "repo"]] :=
  (scan_keeps_unreadable_repo envNotFound [["work", "repo"]]).2
    ["work", "repo"] (by simp) rfl

/-- Counterexample for C5 as stated: scanning one path whose status read
fails with `RepositoryNotFound` returns one result — the default entry
for that path — rather than omitting the repository. -/
theorem scan_not_omitting_cex :
    scanStatuses envNotFound [["work", "repo"]] =
      [Repository.new ["work", "repo"]] :=
  rfl

/-- Inversion: the empty relative path reaches exactly the entry itself. -/
theorem subtreeRel_nil_iff (e x : FsEntry) : SubtreeRel e [] x ↔ x = e := by
  constructor
  · intro h
    cases h
    rfl
  · rintro rfl
    exact .refl x

/-- Inversion: a non-empty relative path into a directory goes through a
child carrying its head component as name. -/
theorem subtreeRel_cons_iff (name : String) (cs : List FsEntry)
    (n : String) (r : List String) (x : FsEntry) :
    SubtreeRel (.dir name cs) (n :: r) x ↔
      ∃ c ∈ cs, entryName c = n ∧ SubtreeRel c r x := by
  constructor
  · intro h
    cases h with
    | step hc hrel => exact ⟨_, hc, rfl, hrel⟩
  · rintro ⟨c, hc, rfl, hrel⟩
    exact .step hc hrel

/-- Inversion: no non-empty relative path leads into a plain file. -/
theorem subtreeRel_file_cons (n0 n : String) (r : List String) (x : FsEntry) :
    ¬ SubtreeRel (.file n0) (n :: r) x := by
  intro h
  cases h

/-- Depth 0 yields only the root entry itself. -/
theorem walkDir_zero (p : List String) (e : FsEntry) :
    walkDir 0 p e = [(p, e)] := by
  cases e <;> simp [walkDir]

/-- Membership in a sibling walk: some listed child's walk contains the
entry. -/
theorem mem_walkSib_iff (d : Nat) (p q : List String) (x : FsEntry)
    (cs : List FsEntry) :
    (q, x) ∈ walkSib d p cs ↔
      ∃ c ∈ cs, (q, x) ∈ walkDir d (p ++ [entryName c]) c := by
  induction cs with
  | nil => simp [walkSib]
  | cons c cs ih =>
    simp only [walkSib, List.mem_append, ih, List.mem_cons]
    constructor
    · rintro (h | ⟨c2, hc2, h⟩)
      · exact ⟨c, .inl rfl, h⟩
      · exact ⟨c2, .inr hc2, h⟩
    · rintro ⟨c2, hc | hc, h⟩
      · subst hc
        exact .inl h
      · exact .inr ⟨c2, hc, h⟩

/-- Entries yielded by the bounded walk are exactly the subtrees within
the depth bound, paired with their full paths. -/
theorem mem_walkDir_iff (d : Nat) (p : List String) (e : FsEntry)
    (q : List String) (x : FsEntry) :
    (q, x) ∈ walkDir d p e ↔
      ∃ r, SubtreeRel e r x ∧ q = p ++ r ∧ r.length ≤ d := by
  induction d generalizing p e q with
  | zero =>
    cases e with
    | file n =>
      simp only [walkDir, List.mem_singleton, Prod.mk.injEq]
      constructor
      · rintro ⟨rfl, rfl⟩
        exact ⟨[], .refl _, by simp, by simp⟩
      · rintro ⟨r, hrel, rfl, hlen⟩
        have hr : r = [] := List.eq_nil_of_length_eq_zero (Nat.le_zero.mp hlen)
        subst hr
        rw [subtreeRel_nil_iff] at hrel
        subst hrel
        simp
    | dir n cs =>
      constructor
      · intro h
        simp only [walkDir_zero, List.mem_singleton, Prod.mk.injEq] at h
        obtain ⟨rfl, rfl⟩ := h
        exact ⟨[], .refl _, by simp, by simp⟩
      · rintro ⟨r, hrel, rfl, hlen⟩
        have hr : r = [] := List.eq_nil_of_length_eq_zero (Nat.le_zero.mp hlen)
        subst hr
        rw [subtreeRel_nil_iff] at hrel
        subst hrel
        simp [walkDir]
  | succ d ih =>
    cases e with
    | file n =>
      simp only [walkDir, List.mem_singleton, Prod.mk.injEq]
      constructor
      · rintro ⟨rfl, rfl⟩
        exact ⟨[], .refl _, by simp, by simp⟩
      · rintro ⟨r, hrel, rfl, hlen⟩
        cases r with
        | nil =>
          rw [subtreeRel_nil_iff] at hrel
          subst hrel
          simp
        | cons n2 r2 => exact absurd hrel (subtreeRel_file_cons n n2 r2 x)
    | dir n cs =>
      constructor
      · intro h
        simp only [walkDir] at h
        rcases List.mem_cons.mp h with heq | hmem
        · obtain ⟨rfl, rfl⟩ := Prod.mk.injEq _ _ _ _ |>.mp heq
          exact ⟨[], .refl _, by simp, by simp⟩
        · rw [if_neg (Nat.succ_ne_zero d)] at hmem
          rw [mem_walkSib_iff] at hmem
          obtain ⟨c, hc, hmem⟩ := hmem
          rw [Nat.add_sub_cancel] at hmem
          rw [ih] at hmem
          obtain ⟨r, hrel, rfl, hlen⟩ := hmem
          refine ⟨entryName c :: r, .step hc hrel, by simp, ?_⟩
          simpa using Nat.succ_le_succ hlen
      · rintro ⟨r, hrel, rfl, hlen⟩
        cases r with
        | nil =>
          rw [subtreeRel_nil_iff] at hrel
          subst hrel
          simp [walkDir]
        | cons n2 r2 =>
          rw [subtreeRel_cons_iff] at hrel
          obtain ⟨c, hc, hname, hrel⟩ := hrel
          simp only [walkDir]
          apply List.mem_cons_of_mem
          rw [if_neg (Nat.succ_ne_zero d)]
          rw [mem_walkSib_iff]
          refine ⟨c, hc, ?_⟩
          rw [Nat.add_sub_cancel, ih]
          refine ⟨r2, hrel, ?_, ?_⟩
          · rw [hname]
            simp
          · simpa using hlen

/-- C7 (amended): a path is reported as a repository root by discovery iff
the walk reaches, within the depth bound, a directory entry named `.git`
whose parent path it is — an entry named `.git` that is a file never
qualifies; but the traversal does descend into `.git` directories, so a
directory named `.git` is itself reported whenever a further `.git`
directory lies directly inside it. -/
theorem scanner_gitDir_characterization :
    (∀ (base : List String) (t : FsEntry) (d : Nat) (p2 : List String),
      p2 ∈ scanRepoPaths base t d ↔
        ∃ r x, SubtreeRel t r x ∧ r.length ≤ d ∧ entryIsDir x = true ∧
          entryName x = ".git" ∧ parentPath (base ++ r) = some p2) ∧
    ["base"] ∈ scanRepoPaths ["base"] nestedGitTree 2 ∧
    ["base", ".git"] ∈ scanRepoPaths ["base"] nestedGitTree 2 := by
  refine ⟨?_, by decide, by decide⟩
  intro base t d p2
  simp only [scanRepoPaths, List.mem_filterMap, Prod.exists]
  constructor
  · rintro ⟨q, x, hmem, hf⟩
    rw [mem_walkDir_iff] at hmem
    obtain ⟨r, hrel, rfl, hlen⟩ := hmem
    by_cases hc : (entryIsDir x && entryName x == ".git") = true
    · rw [if_pos hc] at hf
      rw [Bool.and_eq_true, beq_iff_eq] at hc
      exact ⟨r, x, hrel, hlen, hc.1, hc.2, hf⟩
    · rw [if_neg hc] at hf
      cases hf
  · rintro ⟨r, x, hrel, hlen, hdir, hname, hpar⟩
    refine ⟨base ++ r, x, ?_, ?_⟩
    · rw [mem_walkDir_iff]
      exact ⟨r, hrel, rfl, hlen⟩
    · rw [if_pos (by rw [Bool.and_eq_true, beq_iff_eq]; exact ⟨hdir, hname⟩)]
      exact hpar

/-- Counterexample for C7 as stated: discovery does descend into a `.git`
directory, and on a tree with `.git/.git` it reports the inner parent — a
directory itself named `.git` — as a repository root. -/
theorem scanner_reports_nested_git_cex :
    scanRepoPaths ["base"] nestedGitTree 2 = [["base"], ["base", ".git"]] ∧
    (["base", ".git"] : List String).getLast? = some ".git" :=
  ⟨rfl, rfl⟩

/-- C4 (amended): the depth bound applies to the depth of the `.git`
entry, one level below the repository root it marks; with `maxDepth = 0`
only the root entry itself is visited, so even a repository at the scan
root is not found (its `.git` child sits at depth 1); every reported
repository lies at most `maxDepth - 1` levels below the scan root; and a
repository two levels below the root is returned neither with
`maxDepth = 0` nor with `maxDepth = 2`, but is returned with
`maxDepth = 3`. -/
theorem scanner_maxDepth_bounds :
    (∀ (p : List String) (e : FsEntry), walkDir 0 p e = [(p, e)]) ∧
    (∀ (base : List String) (t : FsEntry) (d : Nat) (p2 : List String),
      p2 ∈ scanRepoPaths base t d → p2.length + 1 ≤ base.length + d) ∧
    scanRepoPaths ["base"] rootRepoTree 0 = [] ∧
    scanRepoPaths ["base"] rootRepoTree 1 = [["base"]] ∧
    scanRepoPaths ["base"] twoDeepTree 0 = [] ∧
    scanRepoPaths ["base"] twoDeepTree 2 = [] ∧
    scanRepoPaths ["base"] twoDeepTree 3 = [["base", "a", "repo"]] := by
  refine ⟨walkDir_zero, ?_, rfl, rfl, rfl, rfl, rfl⟩
  intro base t d p2 h
  simp only [scanRepoPaths, List.mem_filterMap, Prod.exists] at h
  obtain ⟨q, x, hmem, hf⟩ := h
  rw [mem_walkDir_iff] at hmem
  obtain ⟨r, hrel, rfl, hlen⟩ := hmem
  by_cases hc : (entryIsDir x && entryName x == ".git") = true
  · rw [if_pos hc] at hf
    have hq : ¬ (base ++ r) = [] ∧ p2 = (base ++ r).dropLast := by
      cases hbr : base ++ r with
      | nil =>
        rw [hbr] at hf
        cases hf
      | cons a rest =>
        rw [hbr] at hf
        simp only [parentPath, Option.some.injEq] at hf
        exact ⟨by simp [hbr], hf.symm⟩
    obtain ⟨hne, hp2⟩ := hq
    have h1 : (base ++ r).dropLast.length = (base ++ r).length - 1 :=
      List.length_dropLast _
    have h2 : (base ++ r).length = base.length + r.length :=
      List.length_append _ _
    have h3 : 0 < (base ++ r).length := List.length_pos.mpr hne
    rw [hp2]
    omega
  · rw [if_neg hc] at hf
    cases hf

/-- Witness for C4: the repository reported at depth bound 3 lies within
the amended bound. -/
theorem scanner_maxDepth_bounds_witness :
    (["base", "a", "repo"] : List String).length + 1 ≤
      (["base"] : List String).length + 3 :=
  scanner_maxDepth_bounds.2.1 ["base"] twoDeepTree 3 ["base", "a", "repo"]
    (by decide)

/-- Counterexample for C4 as stated: on a tree whose repository root lies
two levels below the scan root, discovery with `maxDepth = 2` returns
nothing — the `.git` entry sits at depth 3 — while `maxDepth = 3` does
return that repository. -/
theorem scanner_twoLevels_not_at_depth2_cex :
    scanRepoPaths ["base"] twoDeepTree 2 = [] ∧
    scanRepoPaths ["base"] twoDeepTree 3 = [["base", "a", "repo"]] :=
  ⟨rfl, rfl⟩
